import Mathlib

/-!
A shallow embedding of the crawl-orchestration engine of
`src/src/hotBoardsAsync/ptt_async_crawler.py` (class `PTTPlaywrightCrawler`),
together with theorems settling a set of claims about it.

External collaborators (Playwright page fetches, HTML extraction, the wall
clock, and the cooperative scheduler's completion order) are modelled as
oracles passed to the embedded functions; everything the orchestration code
itself does (the retry loop, the semaphore-bounded fan-out, result
aggregation, statistics, and success determination) is translated from the
source.
-/

namespace PTTCrawler

/-- Source constant NUM_BOARDS = 10. -/
def NUM_BOARDS : Nat := 10

/-- Source constant ARTICLES_PER_BOARD = 15. -/
def ARTICLES_PER_BOARD : Nat := 15

/-- Source constant CONCURRENT_BOARDS = 3. -/
def CONCURRENT_BOARDS : Nat := 3

/-- Source constant CONCURRENT_ARTICLES = 5. -/
def CONCURRENT_ARTICLES : Nat := 5

/-- Source constant MAX_RETRIES = 2. -/
def MAX_RETRIES : Nat := 2

/-- Source constant RETRY_DELAY = 3 (seconds). -/
def RETRY_DELAY : Nat := 3

/-- Source constant REQUEST_DELAY = 1 (second). -/
def REQUEST_DELAY : Nat := 1

/-- A board dict as produced by get_hotboards / get_default_boards:
keys name and url. -/
structure Board where
  name : String
  url : String
  deriving Repr, DecidableEq, Inhabited

/-- A post dict as produced by get_board_posts (source lines 230-236):
keys title, link, author, date, board. -/
structure Post where
  title : String
  link : String
  author : String
  date : String
  board : String
  deriving Repr, DecidableEq, Inhabited

/-- Environment behaviour of one attempt of the retry loop in
get_article_detail_with_retry: either handle_page_setup reports failure
(returns False), or some awaited call raises an exception, or the page
loads and the extraction yields the (whitespace-normalised) content text
and the push count. -/
inductive AttemptResult where
  | setupFail
  | exn (msg : String)
  | ok (contentText : String) (pushes : Nat)
  deriving Repr, DecidableEq

/-- Whether the environment lets the attempt succeed. -/
def AttemptResult.succeeds : AttemptResult → Bool
  | .ok _ _ => true
  | _ => false

/-- The status field of the result dict: success, failed, or error. -/
inductive Status where
  | success
  | failed
  | error
  deriving Repr, DecidableEq, Inhabited

/-- The result dict built by get_article_detail_with_retry, viewed as a
structured record: the spread fields of the input post plus the added
result fields. crawl_time is present only on the success path, error_msg
only on the error path, exactly as in the three source dicts. -/
structure ArticleRecord where
  post : Post
  content : String
  pushes : Nat
  status : Status
  crawl_time : Option String
  error_msg : Option String
  retry_count : Nat
  deriving Repr, DecidableEq, Inhabited

/-- Outcome of one article unit together with the statistics increments
the unit performs on self.stats while it runs: articles_retried is bumped
on every failed non-final attempt (source lines 265 and 313), errors on a
terminal exception (line 318). -/
structure UnitOut where
  record : ArticleRecord
  retried : Nat
  errors : Nat
  deriving Repr, DecidableEq, Inhabited

/-- The success dict of source lines 290-297: the spread input post plus
content truncated to 1000 characters, pushes, status success, crawl_time
(the wall clock read at line 288), retry_count. Whitespace normalisation
of the raw text is folded into the extraction oracle. -/
def successRecord (post : Post) (c : String) (p : Nat) (now : String) (k : Nat) :
    ArticleRecord :=
  { post := post, content := c.take 1000, pushes := p, status := .success,
    crawl_time := some now, error_msg := none, retry_count := k }

/-- The failed dict of source line 270 (setup failure on the final
attempt). -/
def failedRecord (post : Post) (k : Nat) : ArticleRecord :=
  { post := post, content := "", pushes := 0, status := .failed,
    crawl_time := none, error_msg := none, retry_count := k }

/-- The error dict of source lines 319-326 (exception on the final
attempt). -/
def errorRecord (post : Post) (m : String) (k : Nat) : ArticleRecord :=
  { post := post, content := "", pushes := 0, status := .error,
    crawl_time := none, error_msg := some m, retry_count := k }

/-- The retry loop of get_article_detail_with_retry (source lines 253-329)
at current attempt number k; oracle k says what the environment does on
attempt k. The Python for loop runs retry_count over range(MAX_RETRIES+1);
it is modelled structurally on the number of remaining iterations (fuel),
and the fallback return at line 329 (reached only if the loop could fall
through) is the fuel-0 case. On success the loop returns immediately with
retry_count = k; on a setup failure or an exception with k < MAX_RETRIES
it bumps articles_retried, sleeps RETRY_DELAY and continues; on the final
attempt it returns the failed/error dict with retry_count = k (a terminal
exception also bumps the errors counter). The except clause at line 310
catches every exception raised inside the attempt, so the function is
total: no exception escapes the unit. -/
def retryLoopIter (oracle : Nat → AttemptResult) (post : Post) (now : String) :
    Nat → Nat → UnitOut
  | _, 0 => { record := failedRecord post MAX_RETRIES, retried := 0, errors := 0 }
  | k, fuel + 1 =>
    match oracle k with
    | .ok c p => { record := successRecord post c p now k, retried := 0, errors := 0 }
    | .setupFail =>
      if k < MAX_RETRIES then
        let r := retryLoopIter oracle post now (k + 1) fuel
        { r with retried := r.retried + 1 }
      else
        { record := failedRecord post k, retried := 0, errors := 0 }
    | .exn m =>
      if k < MAX_RETRIES then
        let r := retryLoopIter oracle post now (k + 1) fuel
        { r with retried := r.retried + 1 }
      else
        { record := errorRecord post m k, retried := 0, errors := 1 }

/-- get_article_detail_with_retry: the retry loop entered at attempt 0
with the full iteration budget of the for loop. -/
def get_article_detail_with_retry (oracle : Nat → AttemptResult) (post : Post)
    (now : String) : UnitOut :=
  retryLoopIter oracle post now 0 (MAX_RETRIES + 1)

/-- Observable scheduling events of one run of the retry loop: an attempt
carrying the networkidle timeout handle_page_setup computes for it, the
fixed RETRY_DELAY sleep before a retry (lines 267 and 314), and the
REQUEST_DELAY sleep after a success (line 303). -/
inductive Ev where
  | attempt (k : Nat) (setupTimeout : Nat)
  | sleepRetry (secs : Nat)
  | sleepRequest (secs : Nat)
  deriving Repr, DecidableEq

/-- The timeout handle_page_setup uses on retry number k:
10000 + retry_count * 5000 (source line 104). -/
def attemptTimeout (k : Nat) : Nat := 10000 + k * 5000

/-- The event trace of the retry loop at current attempt number k,
structurally on the remaining iterations of the for loop. -/
def retryTraceIter (oracle : Nat → AttemptResult) : Nat → Nat → List Ev
  | _, 0 => []
  | k, fuel + 1 =>
    match oracle k with
    | .ok _ _ => [.attempt k (attemptTimeout k), .sleepRequest REQUEST_DELAY]
    | .setupFail =>
      if k < MAX_RETRIES then
        .attempt k (attemptTimeout k) :: .sleepRetry RETRY_DELAY ::
          retryTraceIter oracle (k + 1) fuel
      else
        [.attempt k (attemptTimeout k)]
    | .exn _ =>
      if k < MAX_RETRIES then
        .attempt k (attemptTimeout k) :: .sleepRetry RETRY_DELAY ::
          retryTraceIter oracle (k + 1) fuel
      else
        [.attempt k (attemptTimeout k)]

/-- The event trace of one full call of get_article_detail_with_retry. -/
def retryTrace (oracle : Nat → AttemptResult) : List Ev :=
  retryTraceIter oracle 0 (MAX_RETRIES + 1)

/-- The scheduler's completion log: the submitted tasks, paired with their
submission indices, in the order the cooperative scheduler completes them
(order is a list of submission indices; indices outside the task list are
ignored). -/
def completedPairs (order : List Nat) (tasks : List α) : List (Nat × α) :=
  order.filterMap (fun i => (tasks.get? i).map (fun a => (i, a)))

/-- asyncio.gather: each completed task's result is stored at the slot of
its submission index, so the returned list is in submission order
regardless of the completion order. -/
def gather [Inhabited α] (order : List Nat) (tasks : List α) : List α :=
  (List.range tasks.length).map (fun i =>
    match (completedPairs order tasks).find? (fun p => p.1 = i) with
    | some p => p.2
    | none => default)

/-- A completion order covers n tasks when every submission index below n
eventually completes (asyncio.gather only returns once all tasks have). -/
def Covers (order : List Nat) (n : Nat) : Prop := ∀ i < n, i ∈ order

instance (order : List Nat) (n : Nat) : Decidable (Covers order n) :=
  inferInstanceAs (Decidable (∀ i < n, i ∈ order))

/-- get_board_posts (source lines 188-248) from the point of view of the
orchestration: the listing fetch/parse either raises somewhere (the except
clause at line 244 degrades this to an empty post list) or yields parsed
post dicts, of which at most ARTICLES_PER_BOARD are taken (line 209).
A handle_page_setup failure (line 199) also returns the empty list. -/
def get_board_posts (listing : Except String (List Post)) : List Post :=
  match listing with
  | .error _ => []
  | .ok ps => ps.take ARTICLES_PER_BOARD

/-- The value process_board returns for one board, together with the
statistics increments it and its article units perform. -/
structure BoardOut where
  name : String
  articles : List ArticleRecord
  retried : Nat
  errors : Nat
  crawled : Nat
  failedCnt : Nat
  boardsProcessed : Nat
  deriving Repr, DecidableEq, Inhabited

/-- process_board (source lines 399-440): fetch the post list (listing
failures degrade to an empty list), return early with an empty article
list when there are no posts -- note this early return at line 410 comes
before the boards_processed increment at line 431 -- otherwise fan the
article units out under a fresh Semaphore(CONCURRENT_ARTICLES) and gather
them, with order the completion order. Every unit is total, so the
isinstance(result, Exception) filter at line 421 keeps every result;
statistics accumulate exactly as in the source: articles_crawled per
success status, articles_failed per other status, boards_processed
incremented once at the end of the non-empty path. -/
def process_board (order : List Nat) (oracles : Nat → Nat → AttemptResult)
    (board : Board) (listing : Except String (List Post)) (now : String) :
    BoardOut :=
  let posts := get_board_posts listing
  if posts.isEmpty then
    { name := board.name, articles := [], retried := 0, errors := 0,
      crawled := 0, failedCnt := 0, boardsProcessed := 0 }
  else
    let outs := gather order ((posts.enum).map (fun ip =>
      get_article_detail_with_retry (oracles ip.1) ip.2 now))
    let articles := outs.map (fun u => u.record)
    { name := board.name,
      articles := articles,
      retried := (outs.map (fun u => u.retried)).sum,
      errors := (outs.map (fun u => u.errors)).sum,
      crawled := (articles.filter (fun a => a.status == Status.success)).length,
      failedCnt := (articles.filter (fun a => a.status != Status.success)).length,
      boardsProcessed := 1 }

/-- get_default_boards (source lines 171-186): the fixed fallback board
list, truncated to NUM_BOARDS. -/
def get_default_boards : List Board :=
  ([⟨"Gossiping", "https://www.ptt.cc/bbs/Gossiping/"⟩,
    ⟨"Stock", "https://www.ptt.cc/bbs/Stock/"⟩,
    ⟨"NBA", "https://www.ptt.cc/bbs/NBA/"⟩,
    ⟨"Baseball", "https://www.ptt.cc/bbs/Baseball/"⟩,
    ⟨"C_Chat", "https://www.ptt.cc/bbs/C_Chat/"⟩,
    ⟨"PC_Shopping", "https://www.ptt.cc/bbs/PC_Shopping/"⟩,
    ⟨"DC_SALE", "https://www.ptt.cc/bbs/DC_SALE/"⟩,
    ⟨"MobileComm", "https://www.ptt.cc/bbs/MobileComm/"⟩,
    ⟨"Lifeismoney", "https://www.ptt.cc/bbs/Lifeismoney/"⟩,
    ⟨"car", "https://www.ptt.cc/bbs/car/"⟩] : List Board).take NUM_BOARDS

/-- get_hotboards (source lines 124-169): an exception anywhere in the
discovery fetch, or a handle_page_setup failure, routes to
get_default_boards (lines 135 and 167); a parsed list is truncated to
NUM_BOARDS (line 145) and, if it came out empty, also falls back to the
default list (line 163). -/
def get_hotboards (discovery : Except String (List Board)) : List Board :=
  match discovery with
  | .error _ => get_default_boards
  | .ok bs =>
    let taken := bs.take NUM_BOARDS
    if taken.isEmpty then get_default_boards else taken

/-- The per-board outputs crawl_all_boards gathers (source lines 458-462):
one process_board task per board under the Semaphore(CONCURRENT_BOARDS),
joined by one asyncio.gather; boardOrder is the boards' completion order
and articleOrders i the article completion order inside board i; oracles i
j is the attempt oracle of post j of board i. -/
def crawl_bouts (boardOrder : List Nat) (articleOrders : Nat → List Nat)
    (discovery : Except String (List Board))
    (listings : Nat → Except String (List Post))
    (oracles : Nat → Nat → Nat → AttemptResult) (now : String) : List BoardOut :=
  let boards := get_hotboards discovery
  gather boardOrder ((boards.enum).map (fun ib =>
    process_board (articleOrders ib.1) (oracles ib.1) ib.2 (listings ib.1) now))

/-- crawl_all_boards (source lines 442-476): boards_data keeps, per board
name, the board's article list, but only for boards whose article list is
nonempty (line 472); iteration is in gather order, i.e. submission order.
The early return for an empty board list (line 450) can never fire
because get_hotboards falls back to the nonempty default list. -/
def crawl_all_boards (boardOrder : List Nat) (articleOrders : Nat → List Nat)
    (discovery : Except String (List Board))
    (listings : Nat → Except String (List Post))
    (oracles : Nat → Nat → Nat → AttemptResult) (now : String) :
    List (String × List ArticleRecord) :=
  let boards := get_hotboards discovery
  if boards.isEmpty then []
  else
    (crawl_bouts boardOrder articleOrders discovery listings oracles now).filterMap
      (fun bo => if bo.articles.isEmpty then none else some (bo.name, bo.articles))

/-- The boards_processed counter at the end of a run: the sum of the
increments performed by the process_board calls. -/
def boards_processed_total (boardOrder : List Nat) (articleOrders : Nat → List Nat)
    (discovery : Except String (List Board))
    (listings : Nat → Except String (List Post))
    (oracles : Nat → Nat → Nat → AttemptResult) (now : String) : Nat :=
  ((crawl_bouts boardOrder articleOrders discovery listings oracles now).map
    (fun bo => bo.boardsProcessed)).sum

/-- run (source lines 478-517): crawl all boards and return False iff
boards_data came out empty (lines 486-488); the save tasks and the
statistics printout do not affect the returned value (save results are
gathered with return_exceptions=True and ignored). -/
def run (boardOrder : List Nat) (articleOrders : Nat → List Nat)
    (discovery : Except String (List Board))
    (listings : Nat → Except String (List Post))
    (oracles : Nat → Nat → Nat → AttemptResult) (now : String) : Bool :=
  !(crawl_all_boards boardOrder articleOrders discovery listings oracles now).isEmpty

/-- main (source lines 520-532): process exit code 0 iff run() returned
True, 1 otherwise. -/
def mainExitCode (boardOrder : List Nat) (articleOrders : Nat → List Nat)
    (discovery : Except String (List Board))
    (listings : Nat → Except String (List Post))
    (oracles : Nat → Nat → Nat → AttemptResult) (now : String) : Nat :=
  if run boardOrder articleOrders discovery listings oracles now then 0 else 1

/-- A concrete post dict used to evaluate the embedded pipeline. -/
def samplePost : Post :=
  ⟨"t", "https://www.ptt.cc/bbs/B/x.html", "a", "1/1", "B"⟩

/-- A concrete board used to evaluate the embedded pipeline. -/
def sampleBoard : Board := ⟨"B", "https://www.ptt.cc/bbs/B/"⟩

/-- A concrete attempt oracle that fails setup once and then succeeds. -/
def sampleOracle : Nat → AttemptResult :=
  fun k => if k = 1 then .ok "c" 3 else .setupFail

/-- The number of success-status outcomes across a boards_data value. -/
def successCount (bd : List (String × List ArticleRecord)) : Nat :=
  (bd.map (fun e =>
    (e.2.filter (fun a => a.status == Status.success)).length)).sum

/-- Whether a trace event is an attempt. -/
def Ev.isAttempt : Ev → Bool
  | .attempt _ _ => true
  | _ => false

/-- Phase of one board task of crawl_all_boards: waiting on the
Semaphore(CONCURRENT_BOARDS) created at line 458, inside the async with
block of line 401 (holding one board slot), or finished. -/
inductive BPhase where
  | pending
  | active
  | done
  deriving Repr, DecidableEq

/-- Phase of one article task: waiting on its board's
Semaphore(CONCURRENT_ARTICLES) created at line 413, inside the async with
block of line 252 with its page fetch in flight, or finished. -/
inductive APhase where
  | pending
  | fetching
  | done
  deriving Repr, DecidableEq

/-- A snapshot of the two-level scheduler: the phase of every board task
and of every article task. The article tasks of board i are spawned by
that board's process_board while it holds a board slot, and they acquire
that board's own article semaphore. -/
structure SemState (B A : Nat) where
  bphase : Fin B → BPhase
  aphase : Fin A → APhase

/-- The board tasks currently holding a slot of the board semaphore. -/
def activeBoards {B A : Nat} (s : SemState B A) : Finset (Fin B) :=
  Finset.univ.filter (fun i => s.bphase i = .active)

/-- The article tasks of board i currently holding a slot of board i's
article semaphore, i.e. with their fetch in flight. -/
def boardFetching {B A : Nat} (boardOf : Fin A → Fin B) (s : SemState B A)
    (i : Fin B) : Finset (Fin A) :=
  Finset.univ.filter (fun j => boardOf j = i ∧ s.aphase j = .fetching)

/-- All article fetches currently in flight, across every board. -/
def inFlight {B A : Nat} (s : SemState B A) : Nat :=
  (Finset.univ.filter (fun j => s.aphase j = .fetching)).card

/-- The interleaving semantics of the nested semaphores. A board task may
enter its board-semaphore block only while fewer than CONCURRENT_BOARDS
boards hold one; an article task may start its fetch only while its
board's process_board holds a board slot (process_board awaits its
articles inside the async with) and fewer than CONCURRENT_ARTICLES
fetches of that board are in flight; a board task leaves the board
semaphore only after all its article tasks completed (asyncio.gather at
line 416 is awaited inside the block). -/
inductive SemStep {B A : Nat} (boardOf : Fin A → Fin B) :
    SemState B A → SemState B A → Prop where
  | startBoard (s : SemState B A) (i : Fin B) :
      s.bphase i = .pending →
      (activeBoards s).card < CONCURRENT_BOARDS →
      SemStep boardOf s ⟨Function.update s.bphase i .active, s.aphase⟩
  | startArticle (s : SemState B A) (j : Fin A) :
      s.bphase (boardOf j) = .active →
      s.aphase j = .pending →
      (boardFetching boardOf s (boardOf j)).card < CONCURRENT_ARTICLES →
      SemStep boardOf s ⟨s.bphase, Function.update s.aphase j .fetching⟩
  | finishArticle (s : SemState B A) (j : Fin A) :
      s.aphase j = .fetching →
      SemStep boardOf s ⟨s.bphase, Function.update s.aphase j .done⟩
  | finishBoard (s : SemState B A) (i : Fin B) :
      s.bphase i = .active →
      (∀ j, boardOf j = i → s.aphase j = .done) →
      SemStep boardOf s ⟨Function.update s.bphase i .done, s.aphase⟩

/-- The initial snapshot: nothing has been admitted yet. -/
def initSemState (B A : Nat) : SemState B A :=
  ⟨fun _ => .pending, fun _ => .pending⟩

/-- Snapshots reachable during a run. -/
def SemReachable {B A : Nat} (boardOf : Fin A → Fin B) (s : SemState B A) :
    Prop :=
  Relation.ReflTransGen (SemStep boardOf) (initSemState B A) s

/-- The semaphore invariant: at most CONCURRENT_BOARDS boards hold a
board slot, each board has at most CONCURRENT_ARTICLES fetches in flight,
and a board not holding a board slot has none. -/
def SemInv {B A : Nat} (boardOf : Fin A → Fin B) (s : SemState B A) : Prop :=
  (activeBoards s).card ≤ CONCURRENT_BOARDS ∧
  ∀ i : Fin B, (boardFetching boardOf s i).card ≤ CONCURRENT_ARTICLES ∧
    (s.bphase i ≠ .active → boardFetching boardOf s i = ∅)

/-- A Python value appearing in the result dicts: a string or an int. -/
inductive Val where
  | s (str : String)
  | n (nat : Nat)
  deriving Repr, DecidableEq

/-- A Python dict with string keys, as an insertion-ordered association
list (keys unique by construction of the operations below). -/
abbrev PyDict : Type := List (String × Val)

/-- Lookup of a key in a dict. -/
def lookupKey (d : PyDict) (k : String) : Option Val :=
  (d.find? (fun p => p.1 = k)).map (fun p => p.2)

/-- Setting one key, with Python dict semantics: an existing key keeps
its position and gets the new value, a new key is appended. -/
def setKey (d : PyDict) (k : String) (v : Val) : PyDict :=
  if d.any (fun p => p.1 = k) then
    d.map (fun p => if p.1 = k then (k, v) else p)
  else
    d ++ [(k, v)]

/-- The dict literal spread form used by the source,
a dict of post entries followed by added pairs:
each added pair is set in order onto the spread copy of post. -/
def spreadWith (post : PyDict) (kvs : List (String × Val)) : PyDict :=
  kvs.foldl (fun acc kv => setKey acc kv.1 kv.2) post

/-- The post dict built by get_board_posts at source lines 230-236. -/
def postDict (title link author date board : String) : PyDict :=
  [("title", .s title), ("link", .s link), ("author", .s author),
   ("date", .s date), ("board", .s board)]

/-- get_article_detail_with_retry at the granularity of Python dicts: the
same loop as retryLoopIter, but building the three result dicts with the
spread of the input post dict followed by the added result keys, exactly
in source order (success: lines 290-297, failed: line 270 and the
fallback at 329, error: lines 319-326). -/
def retryLoopDict (oracle : Nat → AttemptResult) (post : PyDict)
    (now : String) : Nat → Nat → PyDict
  | _, 0 =>
    spreadWith post [("content", .s ""), ("pushes", .n 0),
      ("status", .s "failed"), ("retry_count", .n MAX_RETRIES)]
  | k, fuel + 1 =>
    match oracle k with
    | .ok c p =>
      spreadWith post [("content", .s (c.take 1000)), ("pushes", .n p),
        ("status", .s "success"), ("crawl_time", .s now),
        ("retry_count", .n k)]
    | .setupFail =>
      if k < MAX_RETRIES then retryLoopDict oracle post now (k + 1) fuel
      else spreadWith post [("content", .s ""), ("pushes", .n 0),
        ("status", .s "failed"), ("retry_count", .n k)]
    | .exn m =>
      if k < MAX_RETRIES then retryLoopDict oracle post now (k + 1) fuel
      else spreadWith post [("content", .s ""), ("pushes", .n 0),
        ("status", .s "error"), ("error", .s m), ("retry_count", .n k)]

/-- The dict-level view of get_article_detail_with_retry. -/
def get_article_detail_dict (oracle : Nat → AttemptResult) (post : PyDict)
    (now : String) : PyDict :=
  retryLoopDict oracle post now 0 (MAX_RETRIES + 1)

/-- The keys the unit may add to the input post dict across all paths. -/
def resultKeys : List String :=
  ["content", "pushes", "status", "crawl_time", "retry_count", "error"]


/-- Every pair in the completion log carries the task at its submission
index. -/
theorem completedPairs_mem {α : Type} {order : List Nat} {tasks : List α}
    {p : Nat × α} (hp : p ∈ completedPairs order tasks) :
    tasks.get? p.1 = some p.2 := by
  simp only [completedPairs] at hp
  rcases List.mem_filterMap.mp hp with ⟨i, _hi, hmap⟩
  rcases Option.map_eq_some'.mp hmap with ⟨a, ha, hpa⟩
  subst hpa
  exact ha

/-- A completed submission index is found in the completion log, with the
task value at that index. -/
theorem completedPairs_find {α : Type} {order : List Nat} {tasks : List α}
    {i : Nat} (hmem : i ∈ order) (hlt : i < tasks.length) :
    ∃ a, (completedPairs order tasks).find? (fun p => p.1 = i) = some (i, a) ∧
      tasks.get? i = some a := by
  have hex : ∃ p, p ∈ completedPairs order tasks ∧
      (fun p : Nat × α => decide (p.1 = i)) p := by
    refine ⟨(i, tasks.get ⟨i, hlt⟩), ?_, by simp⟩
    simp only [completedPairs]
    exact List.mem_filterMap.mpr ⟨i, hmem, by rw [List.get?_eq_get hlt]; rfl⟩
  have hsome : ((completedPairs order tasks).find? (fun p => p.1 = i)).isSome :=
    List.find?_isSome.mpr hex
  obtain ⟨q, hq⟩ := Option.isSome_iff_exists.mp hsome
  have hqi : q.1 = i := by simpa using List.find?_some hq
  have hqget := completedPairs_mem (List.mem_of_find?_eq_some hq)
  refine ⟨q.2, ?_, by rw [← hqi]; exact hqget⟩
  rw [hq]
  cases q
  simp_all

/-- When every submitted task completes, asyncio.gather returns exactly
the task results in submission order, whatever the completion order was. -/
theorem gather_covers {α : Type} [Inhabited α] {order : List Nat}
    {tasks : List α} (h : Covers order tasks.length) :
    gather order tasks = tasks := by
  apply List.ext_getElem
  · simp [gather]
  · intro n h1 h2
    simp only [gather, List.getElem_map, List.getElem_range]
    obtain ⟨a, hfind, hget⟩ := completedPairs_find (h n h2) h2
    rw [hfind]
    have : tasks.get? n = some tasks[n] := by
      rw [List.get?_eq_get h2]
      rfl
    rw [this] at hget
    exact (Option.some_inj.mp hget).symm

/-- The gathered result list always has one slot per submitted task. -/
theorem gather_length {α : Type} [Inhabited α] (order : List Nat)
    (tasks : List α) : (gather order tasks).length = tasks.length := by
  simp [gather]

/-- The unit returns the input post unchanged inside its record, on every
path of the retry loop. -/
theorem retryLoopIter_post (oracle : Nat → AttemptResult) (post : Post)
    (now : String) : ∀ fuel k,
    (retryLoopIter oracle post now k fuel).record.post = post := by
  intro fuel
  induction fuel with
  | zero => intro k; rfl
  | succ n ih =>
    intro k
    cases holk : oracle k with
    | ok c p => simp [retryLoopIter, holk, successRecord]
    | setupFail =>
      by_cases hk : k < MAX_RETRIES
      · simpa [retryLoopIter, holk, hk] using ih (k + 1)
      · simp [retryLoopIter, holk, hk, failedRecord]
    | exn m =>
      by_cases hk : k < MAX_RETRIES
      · simpa [retryLoopIter, holk, hk] using ih (k + 1)
      · simp [retryLoopIter, holk, hk, errorRecord]

/-- Bounds on the retry_count field: under the loop invariant (attempt
number plus remaining iterations equals MAX_RETRIES + 1), the returned
retry_count lies between the entry attempt number and MAX_RETRIES. -/
theorem retryLoopIter_bounds (oracle : Nat → AttemptResult) (post : Post)
    (now : String) : ∀ fuel k, k + fuel = MAX_RETRIES + 1 → 0 < fuel →
    k ≤ (retryLoopIter oracle post now k fuel).record.retry_count ∧
    (retryLoopIter oracle post now k fuel).record.retry_count ≤ MAX_RETRIES := by
  intro fuel
  induction fuel with
  | zero => intro k _ h2; exact absurd h2 (lt_irrefl 0)
  | succ n ih =>
    intro k h1 _
    cases holk : oracle k with
    | ok c p =>
      simp only [retryLoopIter, holk, successRecord]
      omega
    | setupFail =>
      by_cases hk : k < MAX_RETRIES
      · have := ih (k + 1) (by omega) (by omega)
        simp only [retryLoopIter, holk, hk, if_true] at *
        omega
      · simp only [retryLoopIter, holk, hk, if_false, failedRecord]
        omega
    | exn m =>
      by_cases hk : k < MAX_RETRIES
      · have := ih (k + 1) (by omega) (by omega)
        simp only [retryLoopIter, holk, hk, if_true] at *
        omega
      · simp only [retryLoopIter, holk, hk, if_false, errorRecord]
        omega

/-- A non-success outcome always carries retry_count = MAX_RETRIES: both
terminal failure dicts are built on the final attempt. -/
theorem retryLoopIter_not_success (oracle : Nat → AttemptResult) (post : Post)
    (now : String) : ∀ fuel k, k + fuel = MAX_RETRIES + 1 → 0 < fuel →
    (retryLoopIter oracle post now k fuel).record.status ≠ .success →
    (retryLoopIter oracle post now k fuel).record.retry_count = MAX_RETRIES := by
  intro fuel
  induction fuel with
  | zero => intro k _ h2; exact absurd h2 (lt_irrefl 0)
  | succ n ih =>
    intro k h1 _ hst
    cases holk : oracle k with
    | ok c p =>
      simp [retryLoopIter, holk, successRecord] at hst
    | setupFail =>
      by_cases hk : k < MAX_RETRIES
      · simp only [retryLoopIter, holk, hk, if_true] at hst ⊢
        exact ih (k + 1) (by omega) (by omega) hst
      · simp only [retryLoopIter, holk, hk, if_false, failedRecord]
        omega
    | exn m =>
      by_cases hk : k < MAX_RETRIES
      · simp only [retryLoopIter, holk, hk, if_true] at hst ⊢
        exact ih (k + 1) (by omega) (by omega) hst
      · simp only [retryLoopIter, holk, hk, if_false, errorRecord]
        omega

/-- A success outcome's retry_count is the first attempt number at or
after the entry attempt whose environment behaviour is a success. -/
theorem retryLoopIter_success_first (oracle : Nat → AttemptResult)
    (post : Post) (now : String) : ∀ fuel k,
    (retryLoopIter oracle post now k fuel).record.status = .success →
    (oracle ((retryLoopIter oracle post now k fuel).record.retry_count)).succeeds
        = true ∧
    ∀ j, k ≤ j → j < (retryLoopIter oracle post now k fuel).record.retry_count →
      (oracle j).succeeds = false := by
  intro fuel
  induction fuel with
  | zero => intro k hst; simp [retryLoopIter, failedRecord] at hst
  | succ n ih =>
    intro k hst
    cases holk : oracle k with
    | ok c p =>
      simp only [retryLoopIter, holk, successRecord]
      refine ⟨by simp [holk, AttemptResult.succeeds], ?_⟩
      intro j hj1 hj2
      omega
    | setupFail =>
      by_cases hk : k < MAX_RETRIES
      · simp only [retryLoopIter, holk, hk, if_true] at hst ⊢
        obtain ⟨h1, h2⟩ := ih (k + 1) hst
        refine ⟨h1, ?_⟩
        intro j hj1 hj2
        rcases Nat.eq_or_lt_of_le hj1 with hj | hj
        · rw [← hj, holk]; rfl
        · exact h2 j hj hj2
      · simp [retryLoopIter, holk, hk, failedRecord] at hst
    | exn m =>
      by_cases hk : k < MAX_RETRIES
      · simp only [retryLoopIter, holk, hk, if_true] at hst ⊢
        obtain ⟨h1, h2⟩ := ih (k + 1) hst
        refine ⟨h1, ?_⟩
        intro j hj1 hj2
        rcases Nat.eq_or_lt_of_le hj1 with hj | hj
        · rw [← hj, holk]; rfl
        · exact h2 j hj hj2
      · simp [retryLoopIter, holk, hk, errorRecord] at hst

/-- The articles_retried increments performed by the unit equal the number
of failed non-final attempts, i.e. retry_count minus the entry attempt
number. -/
theorem retryLoopIter_retried (oracle : Nat → AttemptResult) (post : Post)
    (now : String) : ∀ fuel k, k + fuel = MAX_RETRIES + 1 → 0 < fuel →
    (retryLoopIter oracle post now k fuel).retried =
      (retryLoopIter oracle post now k fuel).record.retry_count - k := by
  intro fuel
  induction fuel with
  | zero => intro k _ h2; exact absurd h2 (lt_irrefl 0)
  | succ n ih =>
    intro k h1 _
    cases holk : oracle k with
    | ok c p => simp [retryLoopIter, holk, successRecord]
    | setupFail =>
      by_cases hk : k < MAX_RETRIES
      · have hb := retryLoopIter_bounds oracle post now n (k + 1) (by omega) (by omega)
        have hr := ih (k + 1) (by omega) (by omega)
        simp only [retryLoopIter, holk, hk, if_true] at *
        omega
      · simp [retryLoopIter, holk, hk, failedRecord]
    | exn m =>
      by_cases hk : k < MAX_RETRIES
      · have hb := retryLoopIter_bounds oracle post now n (k + 1) (by omega) (by omega)
        have hr := ih (k + 1) (by omega) (by omega)
        simp only [retryLoopIter, holk, hk, if_true] at *
        omega
      · simp [retryLoopIter, holk, hk, errorRecord]

/-- The loop performs at most fuel attempts (with full fuel: at most
MAX_RETRIES + 1). -/
theorem retryTraceIter_attempt_count (oracle : Nat → AttemptResult) :
    ∀ fuel k,
    ((retryTraceIter oracle k fuel).filter Ev.isAttempt).length ≤ fuel := by
  intro fuel
  induction fuel with
  | zero => intro k; simp [retryTraceIter]
  | succ n ih =>
    intro k
    cases holk : oracle k with
    | ok c p => simp [retryTraceIter, holk, Ev.isAttempt]
    | setupFail =>
      by_cases hk : k < MAX_RETRIES
      · have := ih (k + 1)
        simp only [retryTraceIter, holk, hk, if_true, List.filter,
          Ev.isAttempt, List.length_cons] at *
        omega
      · simp [retryTraceIter, holk, hk, Ev.isAttempt]
    | exn m =>
      by_cases hk : k < MAX_RETRIES
      · have := ih (k + 1)
        simp only [retryTraceIter, holk, hk, if_true, List.filter,
          Ev.isAttempt, List.length_cons] at *
        omega
      · simp [retryTraceIter, holk, hk, Ev.isAttempt]

/-- Every attempt event carries the escalating setup timeout of
handle_page_setup: attempt j waits with timeout 10000 + j * 5000. -/
theorem retryTraceIter_attempt_timeout (oracle : Nat → AttemptResult) :
    ∀ fuel k j t, Ev.attempt j t ∈ retryTraceIter oracle k fuel →
    t = attemptTimeout j := by
  intro fuel
  induction fuel with
  | zero => intro k j t h; simp [retryTraceIter] at h
  | succ n ih =>
    intro k j t h
    cases holk : oracle k with
    | ok c p =>
      simp only [retryTraceIter, holk] at h
      rcases List.mem_cons.mp h with h1 | h1
      · obtain ⟨hj, ht⟩ := Ev.attempt.inj h1.symm
        rw [← ht, hj]
      · simp at h1
    | setupFail =>
      by_cases hk : k < MAX_RETRIES
      · simp only [retryTraceIter, holk, hk, if_true] at h
        rcases List.mem_cons.mp h with h1 | h1
        · obtain ⟨hj, ht⟩ := Ev.attempt.inj h1.symm
          rw [← ht, hj]
        · rcases List.mem_cons.mp h1 with h2 | h2
          · exact absurd h2.symm (by simp)
          · exact ih (k + 1) j t h2
      · simp only [retryTraceIter, holk, hk, if_false, List.mem_singleton] at h
        obtain ⟨hj, ht⟩ := Ev.attempt.inj h.symm
        rw [← ht, hj]
    | exn m =>
      by_cases hk : k < MAX_RETRIES
      · simp only [retryTraceIter, holk, hk, if_true] at h
        rcases List.mem_cons.mp h with h1 | h1
        · obtain ⟨hj, ht⟩ := Ev.attempt.inj h1.symm
          rw [← ht, hj]
        · rcases List.mem_cons.mp h1 with h2 | h2
          · exact absurd h2.symm (by simp)
          · exact ih (k + 1) j t h2
      · simp only [retryTraceIter, holk, hk, if_false, List.mem_singleton] at h
        obtain ⟨hj, ht⟩ := Ev.attempt.inj h.symm
        rw [← ht, hj]

/-- An attempt that is followed by another attempt (i.e. a failed
non-final attempt) is immediately followed by the fixed RETRY_DELAY
sleep. -/
theorem retryTraceIter_sleep_between (oracle : Nat → AttemptResult) :
    ∀ fuel k pre j t rest,
    retryTraceIter oracle k fuel = pre ++ Ev.attempt j t :: rest →
    (∃ ev ∈ rest, Ev.isAttempt ev) →
    rest.head? = some (Ev.sleepRetry RETRY_DELAY) := by
  intro fuel
  induction fuel with
  | zero =>
    intro k pre j t rest h _
    simp [retryTraceIter] at h
  | succ n ih =>
    intro k pre j t rest h hex
    cases holk : oracle k with
    | ok c p =>
      simp only [retryTraceIter, holk] at h
      rcases pre with _ | ⟨x, _ | ⟨y, pre2⟩⟩
      · simp only [List.nil_append, List.cons.injEq] at h
        obtain ⟨ev, hev, hat⟩ := hex
        rw [← h.2] at hev
        simp only [List.mem_singleton] at hev
        subst hev
        simp [Ev.isAttempt] at hat
      · simp_all
      · simp only [List.cons_append, List.cons.injEq] at h
        simp at h
    | setupFail =>
      by_cases hk : k < MAX_RETRIES
      · simp only [retryTraceIter, holk, hk, if_true] at h
        rcases pre with _ | ⟨x, _ | ⟨y, pre2⟩⟩
        · simp only [List.nil_append, List.cons.injEq] at h
          rw [← h.2]
          rfl
        · simp_all
        · simp only [List.cons_append, List.cons.injEq] at h
          exact ih (k + 1) pre2 j t rest h.2.2 hex
      · simp only [retryTraceIter, holk, hk, if_false] at h
        rcases pre with _ | ⟨x, pre1⟩ <;> simp_all [Ev.isAttempt]
    | exn m =>
      by_cases hk : k < MAX_RETRIES
      · simp only [retryTraceIter, holk, hk, if_true] at h
        rcases pre with _ | ⟨x, _ | ⟨y, pre2⟩⟩
        · simp only [List.nil_append, List.cons.injEq] at h
          rw [← h.2]
          rfl
        · simp_all
        · simp only [List.cons_append, List.cons.injEq] at h
          exact ih (k + 1) pre2 j t rest h.2.2 hex
      · simp only [retryTraceIter, holk, hk, if_false] at h
        rcases pre with _ | ⟨x, pre1⟩ <;> simp_all [Ev.isAttempt]

/-- When the loop ends in success, no attempt beyond the successful one
appears in the trace: the loop returns immediately on success. -/
theorem retryTraceIter_attempts_le_of_success (oracle : Nat → AttemptResult)
    (post : Post) (now : String) :
    ∀ fuel k, k + fuel = MAX_RETRIES + 1 → 0 < fuel →
    (retryLoopIter oracle post now k fuel).record.status = .success →
    ∀ j t, Ev.attempt j t ∈ retryTraceIter oracle k fuel →
    j ≤ (retryLoopIter oracle post now k fuel).record.retry_count := by
  intro fuel
  induction fuel with
  | zero => intro k _ h2; exact absurd h2 (lt_irrefl 0)
  | succ n ih =>
    intro k h1 _ hst j t hmem
    cases holk : oracle k with
    | ok c p =>
      simp only [retryTraceIter, holk] at hmem
      simp only [retryLoopIter, holk, successRecord]
      rcases List.mem_cons.mp hmem with h2 | h2
      · obtain ⟨hj, _⟩ := Ev.attempt.inj h2.symm
        omega
      · simp at h2
    | setupFail =>
      by_cases hk : k < MAX_RETRIES
      · simp only [retryTraceIter, holk, hk, if_true] at hmem
        simp only [retryLoopIter, holk, hk, if_true] at hst ⊢
        have hb := retryLoopIter_bounds oracle post now n (k + 1) (by omega)
          (by omega)
        rcases List.mem_cons.mp hmem with h2 | h2
        · obtain ⟨hj, _⟩ := Ev.attempt.inj h2.symm
          omega
        · rcases List.mem_cons.mp h2 with h3 | h3
          · exact absurd h3.symm (by simp)
          · exact ih (k + 1) (by omega) (by omega) hst j t h3
      · simp [retryLoopIter, holk, hk, failedRecord] at hst
    | exn m =>
      by_cases hk : k < MAX_RETRIES
      · simp only [retryTraceIter, holk, hk, if_true] at hmem
        simp only [retryLoopIter, holk, hk, if_true] at hst ⊢
        have hb := retryLoopIter_bounds oracle post now n (k + 1) (by omega)
          (by omega)
        rcases List.mem_cons.mp hmem with h2 | h2
        · obtain ⟨hj, _⟩ := Ev.attempt.inj h2.symm
          omega
        · rcases List.mem_cons.mp h2 with h3 | h3
          · exact absurd h3.symm (by simp)
          · exact ih (k + 1) (by omega) (by omega) hst j t h3
      · simp [retryLoopIter, holk, hk, errorRecord] at hst

theorem mem_activeBoards {B A : Nat} {s : SemState B A} {i : Fin B} :
    i ∈ activeBoards s ↔ s.bphase i = .active := by
  simp [activeBoards]

theorem mem_boardFetching {B A : Nat} {boardOf : Fin A → Fin B}
    {s : SemState B A} {i : Fin B} {j : Fin A} :
    j ∈ boardFetching boardOf s i ↔
      boardOf j = i ∧ s.aphase j = .fetching := by
  simp [boardFetching]

/-- The invariant holds initially. -/
theorem semInv_init (B A : Nat) (boardOf : Fin A → Fin B) :
    SemInv boardOf (initSemState B A) := by
  constructor
  · have h : activeBoards (initSemState B A) = ∅ := by
      apply Finset.eq_empty_of_forall_not_mem
      intro i hi
      simp [mem_activeBoards, initSemState] at hi
    simp [h]
  · intro i
    have h : boardFetching boardOf (initSemState B A) i = ∅ := by
      apply Finset.eq_empty_of_forall_not_mem
      intro j hj
      rw [mem_boardFetching] at hj
      simp [initSemState] at hj
    simp [h]

/-- Every step of the scheduler preserves the semaphore invariant. -/
theorem semInv_step {B A : Nat} {boardOf : Fin A → Fin B}
    {s s2 : SemState B A} (hstep : SemStep boardOf s s2)
    (hinv : SemInv boardOf s) : SemInv boardOf s2 := by
  obtain ⟨hact, hper⟩ := hinv
  cases hstep with
  | startBoard i hpend hcard =>
    constructor
    · have hsub : activeBoards
          (⟨Function.update s.bphase i .active, s.aphase⟩ : SemState B A) ⊆
          insert i (activeBoards s) := by
        intro x hx
        rw [mem_activeBoards] at hx
        dsimp only at hx
        by_cases hxi : x = i
        · subst hxi
          exact Finset.mem_insert_self x _
        · rw [Function.update_noteq hxi] at hx
          exact Finset.mem_insert_of_mem (mem_activeBoards.mpr hx)
      have := Finset.card_le_card hsub
      have := Finset.card_insert_le i (activeBoards s)
      omega
    · intro i2
      have heq : boardFetching boardOf
          (⟨Function.update s.bphase i .active, s.aphase⟩ : SemState B A) i2 =
          boardFetching boardOf s i2 := rfl
      rw [heq]
      refine ⟨(hper i2).1, ?_⟩
      intro hne
      dsimp only at hne
      by_cases hi2 : i2 = i
      · subst hi2
        exact absurd (Function.update_same i2 BPhase.active s.bphase) hne
      · rw [Function.update_noteq hi2] at hne
        exact (hper i2).2 hne
  | startArticle j hbact hapend hcard =>
    constructor
    · exact hact
    · intro i2
      by_cases hi2 : i2 = boardOf j
      · subst hi2
        constructor
        · have hsub : boardFetching boardOf
              (⟨s.bphase, Function.update s.aphase j .fetching⟩ : SemState B A)
              (boardOf j) ⊆ insert j (boardFetching boardOf s (boardOf j)) := by
            intro x hx
            rw [mem_boardFetching] at hx
            dsimp only at hx
            by_cases hxj : x = j
            · subst hxj
              exact Finset.mem_insert_self x _
            · rw [Function.update_noteq hxj] at hx
              exact Finset.mem_insert_of_mem (mem_boardFetching.mpr hx)
          have := Finset.card_le_card hsub
          have := Finset.card_insert_le j (boardFetching boardOf s (boardOf j))
          omega
        · intro hne
          exact absurd hbact hne
      · have heq : boardFetching boardOf
            (⟨s.bphase, Function.update s.aphase j .fetching⟩ : SemState B A)
            i2 = boardFetching boardOf s i2 := by
          apply Finset.ext
          intro x
          rw [mem_boardFetching, mem_boardFetching]
          dsimp only
          constructor
          · rintro ⟨hb, hf⟩
            refine ⟨hb, ?_⟩
            have hxj : x ≠ j := by
              intro hxx
              subst hxx
              exact hi2 hb.symm
            rwa [Function.update_noteq hxj] at hf
          · rintro ⟨hb, hf⟩
            refine ⟨hb, ?_⟩
            have hxj : x ≠ j := by
              intro hxx
              subst hxx
              exact hi2 hb.symm
            rwa [Function.update_noteq hxj]
        rw [heq]
        exact hper i2
  | finishArticle j hfetch =>
    constructor
    · exact hact
    · intro i2
      have hsub : boardFetching boardOf
          (⟨s.bphase, Function.update s.aphase j .done⟩ : SemState B A) i2 ⊆
          boardFetching boardOf s i2 := by
        intro x hx
        rw [mem_boardFetching] at hx
        dsimp only at hx
        by_cases hxj : x = j
        · subst hxj
          rw [Function.update_same] at hx
          exact absurd hx.2 (by simp)
        · rw [Function.update_noteq hxj] at hx
          exact mem_boardFetching.mpr hx
      constructor
      · exact le_trans (Finset.card_le_card hsub) (hper i2).1
      · intro hne
        have := (hper i2).2 hne
        rw [this] at hsub
        exact Finset.subset_empty.mp hsub
  | finishBoard i hbact hall =>
    constructor
    · have hsub : activeBoards
          (⟨Function.update s.bphase i .done, s.aphase⟩ : SemState B A) ⊆
          activeBoards s := by
        intro x hx
        rw [mem_activeBoards] at hx
        dsimp only at hx
        by_cases hxi : x = i
        · subst hxi
          rw [Function.update_same] at hx
          exact absurd hx (by simp)
        · rw [Function.update_noteq hxi] at hx
          exact mem_activeBoards.mpr hx
      exact le_trans (Finset.card_le_card hsub) hact
    · intro i2
      have heq : boardFetching boardOf
          (⟨Function.update s.bphase i .done, s.aphase⟩ : SemState B A) i2 =
          boardFetching boardOf s i2 := rfl
      rw [heq]
      refine ⟨(hper i2).1, ?_⟩
      intro hne
      dsimp only at hne
      by_cases hi2 : i2 = i
      · subst hi2
        apply Finset.eq_empty_of_forall_not_mem
        intro x hx
        rw [mem_boardFetching] at hx
        have := hall x hx.1
        rw [this] at hx
        exact absurd hx.2 (by simp)
      · rw [Function.update_noteq hi2] at hne
        exact (hper i2).2 hne

/-- The invariant holds in every reachable snapshot. -/
theorem semInv_reachable {B A : Nat} {boardOf : Fin A → Fin B}
    {s : SemState B A} (h : SemReachable boardOf s) : SemInv boardOf s := by
  induction h with
  | refl => exact semInv_init B A boardOf
  | tail _ hstep ih => exact semInv_step hstep ih

/-- Each in-flight fetch belongs to exactly one board, so the global
in-flight count is the sum of the per-board counts. -/
theorem inFlight_eq_sum {B A : Nat} (boardOf : Fin A → Fin B)
    (s : SemState B A) :
    inFlight s = ∑ i : Fin B, (boardFetching boardOf s i).card := by
  have H : ∀ x ∈ Finset.univ.filter (fun j => s.aphase j = APhase.fetching),
      boardOf x ∈ (Finset.univ : Finset (Fin B)) := fun x _ => Finset.mem_univ _
  rw [inFlight, Finset.card_eq_sum_card_fiberwise H]
  apply Finset.sum_congr rfl
  intro i _
  congr 1
  apply Finset.ext
  intro j
  rw [mem_boardFetching]
  simp only [Finset.mem_filter, Finset.mem_univ, true_and]
  tauto

/-- Under the semaphore invariant the global in-flight fetch count is
bounded by the product of the two semaphore limits. -/
theorem semInv_inFlight {B A : Nat} {boardOf : Fin A → Fin B}
    {s : SemState B A} (hinv : SemInv boardOf s) :
    inFlight s ≤ CONCURRENT_BOARDS * CONCURRENT_ARTICLES := by
  obtain ⟨hact, hper⟩ := hinv
  rw [inFlight_eq_sum boardOf s]
  have hsplit := Finset.sum_filter_add_sum_filter_not Finset.univ
    (fun i => s.bphase i = BPhase.active)
    (fun i => (boardFetching boardOf s i).card)
  have hzero : ∑ i in Finset.univ.filter (fun i => ¬ s.bphase i = BPhase.active),
      (boardFetching boardOf s i).card = 0 := by
    apply Finset.sum_eq_zero
    intro i hi
    rw [Finset.mem_filter] at hi
    rw [(hper i).2 hi.2]
    simp
  have hbound : ∑ i in Finset.univ.filter (fun i => s.bphase i = BPhase.active),
      (boardFetching boardOf s i).card ≤
      (activeBoards s).card * CONCURRENT_ARTICLES := by
    have := Finset.sum_le_card_nsmul
      (Finset.univ.filter (fun i => s.bphase i = BPhase.active))
      (fun i => (boardFetching boardOf s i).card) CONCURRENT_ARTICLES
      (fun i _ => (hper i).1)
    simpa [activeBoards, smul_eq_mul] using this
  calc (∑ i : Fin B, (boardFetching boardOf s i).card)
      = (∑ i in Finset.univ.filter (fun i => s.bphase i = BPhase.active),
          (boardFetching boardOf s i).card) +
        ∑ i in Finset.univ.filter (fun i => ¬ s.bphase i = BPhase.active),
          (boardFetching boardOf s i).card := hsplit.symm
    _ = ∑ i in Finset.univ.filter (fun i => s.bphase i = BPhase.active),
          (boardFetching boardOf s i).card := by rw [hzero]; omega
    _ ≤ (activeBoards s).card * CONCURRENT_ARTICLES := hbound
    _ ≤ CONCURRENT_BOARDS * CONCURRENT_ARTICLES :=
        Nat.mul_le_mul_right CONCURRENT_ARTICLES hact

/-- The articles of process_board, under a complete completion order: one
record per input post, in input order, each produced by its own unit. -/
theorem process_board_articles (order : List Nat)
    (oracles : Nat → Nat → AttemptResult) (board : Board)
    (listing : Except String (List Post)) (now : String)
    (hcov : Covers order (get_board_posts listing).length) :
    (process_board order oracles board listing now).articles =
      (get_board_posts listing).enum.map
        (fun ip => (get_article_detail_with_retry (oracles ip.1) ip.2 now).record) := by
  cases hemp : (get_board_posts listing).isEmpty with
  | true =>
    have hnil : get_board_posts listing = [] := by
      rwa [List.isEmpty_iff] at hemp
    simp [process_board, hemp, hnil]
  | false =>
    have hlen : ((get_board_posts listing).enum.map
        (fun ip => get_article_detail_with_retry (oracles ip.1) ip.2 now)).length =
        (get_board_posts listing).length := by
      simp [List.enum_length]
    simp only [process_board, hemp, Bool.false_eq_true, if_false]
    rw [gather_covers (by rwa [hlen])]
    rw [List.map_map]
    rfl

/-- process_board yields exactly one article record per input post. -/
theorem process_board_length (order : List Nat)
    (oracles : Nat → Nat → AttemptResult) (board : Board)
    (listing : Except String (List Post)) (now : String)
    (hcov : Covers order (get_board_posts listing).length) :
    (process_board order oracles board listing now).articles.length =
      (get_board_posts listing).length := by
  rw [process_board_articles order oracles board listing now hcov]
  simp [List.enum_length]

/-- The article records come back in input order: the i-th record embeds
the i-th input post. -/
theorem process_board_posts (order : List Nat)
    (oracles : Nat → Nat → AttemptResult) (board : Board)
    (listing : Except String (List Post)) (now : String)
    (hcov : Covers order (get_board_posts listing).length) :
    (process_board order oracles board listing now).articles.map
        (fun a => a.post) = get_board_posts listing := by
  rw [process_board_articles order oracles board listing now hcov]
  rw [List.map_map]
  have hcong : ((get_board_posts listing).enum).map
      ((fun a : ArticleRecord => a.post) ∘
        (fun ip : Nat × Post =>
          (get_article_detail_with_retry (oracles ip.1) ip.2 now).record)) =
      ((get_board_posts listing).enum).map Prod.snd := by
    apply List.map_congr_left
    intro ip _
    exact retryLoopIter_post (oracles ip.1) ip.2 now (MAX_RETRIES + 1) 0
  rw [hcong, List.enum_map_snd]

/-- The j-th article record of a board is exactly the output of the j-th
post's own unit: it depends only on that post and that post's oracle,
never on sibling posts. -/
theorem process_board_get (order : List Nat)
    (oracles : Nat → Nat → AttemptResult) (board : Board)
    (listing : Except String (List Post)) (now : String)
    (hcov : Covers order (get_board_posts listing).length) (j : Nat)
    (hj : j < (get_board_posts listing).length) :
    (process_board order oracles board listing now).articles.get? j =
      some ((get_article_detail_with_retry (oracles j)
        ((get_board_posts listing).get ⟨j, hj⟩) now).record) := by
  rw [process_board_articles order oracles board listing now hcov]
  have hj2 : j < (get_board_posts listing).enum.length := by
    simpa [List.enum_length] using hj
  rw [List.get?_eq_getElem?, List.getElem?_map, List.getElem?_eq_getElem hj2,
    List.getElem_enum]
  rfl

/-- process_board always reports the board's own name. -/
theorem process_board_name (order : List Nat)
    (oracles : Nat → Nat → AttemptResult) (board : Board)
    (listing : Except String (List Post)) (now : String) :
    (process_board order oracles board listing now).name = board.name := by
  cases h : (get_board_posts listing).isEmpty <;> simp [process_board, h]

/-- A board whose listing failed or returned no posts yields the empty
output and performs no statistics increment at all: the early return at
line 410 precedes the boards_processed increment at line 431. -/
theorem process_board_empty (order : List Nat)
    (oracles : Nat → Nat → AttemptResult) (board : Board)
    (listing : Except String (List Post)) (now : String)
    (h : get_board_posts listing = []) :
    process_board order oracles board listing now =
      { name := board.name, articles := [], retried := 0, errors := 0,
        crawled := 0, failedCnt := 0, boardsProcessed := 0 } := by
  simp [process_board, h]

/-- A board with at least one post is counted in boards_processed. -/
theorem process_board_nonempty (order : List Nat)
    (oracles : Nat → Nat → AttemptResult) (board : Board)
    (listing : Except String (List Post)) (now : String)
    (h : get_board_posts listing ≠ []) :
    (process_board order oracles board listing now).boardsProcessed = 1 := by
  have hb : (get_board_posts listing).isEmpty = false := by
    rw [List.isEmpty_eq_false]
    exact h
  simp [process_board, hb]

/-- The board list is never empty: every failure path of get_hotboards
falls back to the fixed nonempty default list. -/
theorem get_hotboards_ne_nil (discovery : Except String (List Board)) :
    get_hotboards discovery ≠ [] := by
  cases discovery with
  | error e =>
    show get_default_boards ≠ []
    decide
  | ok bs =>
    simp only [get_hotboards]
    cases h : (bs.take NUM_BOARDS).isEmpty with
    | true =>
      simp only [if_true]
      show get_default_boards ≠ []
      decide
    | false =>
      simp only [Bool.false_eq_true, if_false]
      rwa [List.isEmpty_eq_false] at h

/-- With a complete board completion order, the gathered per-board
outputs are one process_board output per board, in submission order. -/
theorem crawl_bouts_covers (boardOrder : List Nat)
    (articleOrders : Nat → List Nat) (discovery : Except String (List Board))
    (listings : Nat → Except String (List Post))
    (oracles : Nat → Nat → Nat → AttemptResult) (now : String)
    (hb : Covers boardOrder (get_hotboards discovery).length) :
    crawl_bouts boardOrder articleOrders discovery listings oracles now =
      (get_hotboards discovery).enum.map (fun ib =>
        process_board (articleOrders ib.1) (oracles ib.1) ib.2
          (listings ib.1) now) := by
  unfold crawl_bouts
  exact gather_covers (by simpa [List.enum_length] using hb)

/-- One per-board output is produced for every board, with any completion
order. -/
theorem crawl_bouts_length (boardOrder : List Nat)
    (articleOrders : Nat → List Nat) (discovery : Except String (List Board))
    (listings : Nat → Except String (List Post))
    (oracles : Nat → Nat → Nat → AttemptResult) (now : String) :
    (crawl_bouts boardOrder articleOrders discovery listings oracles now).length
      = (get_hotboards discovery).length := by
  unfold crawl_bouts
  rw [gather_length]
  simp [List.enum_length]

/-- Every entry of boards_data has a nonempty article list: empty boards
are skipped at the output stage. -/
theorem crawl_entries_ne_nil (boardOrder : List Nat)
    (articleOrders : Nat → List Nat) (discovery : Except String (List Board))
    (listings : Nat → Except String (List Post))
    (oracles : Nat → Nat → Nat → AttemptResult) (now : String) :
    ∀ entry ∈ crawl_all_boards boardOrder articleOrders discovery listings
      oracles now, entry.2 ≠ [] := by
  intro entry hmem
  unfold crawl_all_boards at hmem
  cases hBE : (get_hotboards discovery).isEmpty with
  | true => simp [hBE] at hmem
  | false =>
    simp only [hBE, Bool.false_eq_true, if_false] at hmem
    rcases List.mem_filterMap.mp hmem with ⟨bo, _, hf⟩
    cases hae : bo.articles.isEmpty with
    | true => simp [hae] at hf
    | false =>
      simp only [hae, Bool.false_eq_true, if_false, Option.some.injEq] at hf
      rw [← hf]
      rw [List.isEmpty_eq_false] at hae
      exact hae

/-- boards_data is nonempty exactly when some board's listing produced at
least one post: every post yields an outcome (of whatever status), and a
board with no posts contributes nothing. -/
theorem crawl_ne_nil_iff (boardOrder : List Nat)
    (articleOrders : Nat → List Nat) (discovery : Except String (List Board))
    (listings : Nat → Except String (List Post))
    (oracles : Nat → Nat → Nat → AttemptResult) (now : String)
    (hb : Covers boardOrder (get_hotboards discovery).length)
    (ha : ∀ i, Covers (articleOrders i) (get_board_posts (listings i)).length) :
    crawl_all_boards boardOrder articleOrders discovery listings oracles now
        ≠ [] ↔
      ∃ i < (get_hotboards discovery).length,
        get_board_posts (listings i) ≠ [] := by
  unfold crawl_all_boards
  have hBE : (get_hotboards discovery).isEmpty = false := by
    rw [List.isEmpty_eq_false]
    exact get_hotboards_ne_nil discovery
  simp only [hBE, Bool.false_eq_true, if_false]
  rw [crawl_bouts_covers boardOrder articleOrders discovery listings oracles
    now hb]
  rw [Ne, List.filterMap_eq_nil_iff]
  push_neg
  constructor
  · rintro ⟨bo, hbo, hnone⟩
    rcases List.mem_map.mp hbo with ⟨ib, hib, hgib⟩
    have hib2 := List.mem_enum_iff_getElem?.mp hib
    have hlt : ib.1 < (get_hotboards discovery).length :=
      (List.getElem?_eq_some.mp hib2).1
    refine ⟨ib.1, hlt, ?_⟩
    intro hpe
    apply hnone
    rw [← hgib, process_board_empty _ _ _ _ _ hpe]
    rfl
  · rintro ⟨i, hi, hne⟩
    refine ⟨process_board (articleOrders i) (oracles i)
      ((get_hotboards discovery).get ⟨i, hi⟩) (listings i) now, ?_, ?_⟩
    · apply List.mem_map.mpr
      refine ⟨(i, (get_hotboards discovery).get ⟨i, hi⟩), ?_, rfl⟩
      apply List.mem_enum_iff_getElem?.mpr
      rw [List.getElem?_eq_getElem hi]
      rfl
    · have hlen := process_board_length (articleOrders i) (oracles i)
        ((get_hotboards discovery).get ⟨i, hi⟩) (listings i) now (ha i)
      intro hco
      have hane : (process_board (articleOrders i) (oracles i)
          ((get_hotboards discovery).get ⟨i, hi⟩) (listings i) now).articles
          ≠ [] := by
        intro hanil
        rw [hanil] at hlen
        exact hne (List.eq_nil_of_length_eq_zero hlen.symm)
      have hiF := List.isEmpty_eq_false.mpr hane
      rw [hiF] at hco
      simp at hco

/-- Overwriting the value of key k2 does not change the lookup of a
different key. -/
theorem lookupKey_map_set {d : PyDict} {k k2 : String} {v : Val}
    (hne : k ≠ k2) :
    lookupKey (d.map (fun p => if p.1 = k2 then (k2, v) else p)) k =
      lookupKey d k := by
  induction d with
  | nil => rfl
  | cons p d ih =>
    simp only [List.map_cons, lookupKey, List.find?]
    by_cases hp : p.1 = k2
    · simp only [if_pos hp]
      have h1 : (decide (((k2, v) : String × Val).1 = k)) = false := by
        apply decide_eq_false
        exact fun he => hne he.symm
      have h2 : (decide (p.1 = k)) = false := by
        apply decide_eq_false
        intro he
        exact hne ((hp.symm.trans he).symm)
      rw [h1, h2]
      exact ih
    · simp only [if_neg hp]
      cases hpk : (decide (p.1 = k)) with
      | true => rfl
      | false => exact ih

/-- Setting a different key does not change a lookup. -/
theorem lookupKey_setKey_ne {d : PyDict} {k k2 : String} {v : Val}
    (hne : k ≠ k2) : lookupKey (setKey d k2 v) k = lookupKey d k := by
  unfold setKey
  cases hany : d.any (fun p => p.1 = k2) with
  | true =>
    simp only [hany, if_true]
    exact lookupKey_map_set hne
  | false =>
    simp only [hany, Bool.false_eq_true, if_false]
    unfold lookupKey
    rw [List.find?_append]
    have hsingle : ([(k2, v)] : PyDict).find? (fun p => p.1 = k) = none := by
      simp only [List.find?]
      have h1 : (decide (((k2, v) : String × Val).1 = k)) = false := by
        apply decide_eq_false
        exact fun he => hne he.symm
      rw [h1]
    rw [hsingle, Option.or_none]

/-- Spreading a post dict with added pairs does not change the lookup of
any key that is not among the added keys. -/
theorem lookupKey_spreadWith {k : String} :
    ∀ (kvs : List (String × Val)) (post : PyDict),
    (∀ kv ∈ kvs, kv.1 ≠ k) →
    lookupKey (spreadWith post kvs) k = lookupKey post k := by
  intro kvs
  induction kvs with
  | nil => intro post _; rfl
  | cons kv kvs ih =>
    intro post h
    have hstep : spreadWith post (kv :: kvs) =
        spreadWith (setKey post kv.1 kv.2) kvs := rfl
    rw [hstep, ih (setKey post kv.1 kv.2)
      (fun x hx => h x (List.mem_cons_of_mem _ hx))]
    exact lookupKey_setKey_ne
      (fun he => (h kv (List.mem_cons_self _ _)) he.symm)

/-- Every terminal dict of the retry loop preserves the lookup of every
key outside resultKeys. -/
theorem retryLoopDict_frame (oracle : Nat → AttemptResult) (post : PyDict)
    (now : String) : ∀ fuel k key, key ∉ resultKeys →
    lookupKey (retryLoopDict oracle post now k fuel) key =
      lookupKey post key := by
  intro fuel
  induction fuel with
  | zero =>
    intro k key hkey
    simp only [resultKeys, List.mem_cons, List.not_mem_nil] at hkey
    push_neg at hkey
    apply lookupKey_spreadWith
    intro kv hkv
    fin_cases hkv <;> (intro he; subst he; simp_all)
  | succ n ih =>
    intro k key hkey
    have hkey2 := hkey
    simp only [resultKeys, List.mem_cons, List.not_mem_nil] at hkey2
    push_neg at hkey2
    cases holk : oracle k with
    | ok c p =>
      simp only [retryLoopDict, holk]
      apply lookupKey_spreadWith
      intro kv hkv
      fin_cases hkv <;> (intro he; subst he; simp_all)
    | setupFail =>
      by_cases hk : k < MAX_RETRIES
      · simp only [retryLoopDict, holk, hk, if_true]
        exact ih (k + 1) key hkey
      · simp only [retryLoopDict, holk, hk, if_false]
        apply lookupKey_spreadWith
        intro kv hkv
        fin_cases hkv <;> (intro he; subst he; simp_all)
    | exn m =>
      by_cases hk : k < MAX_RETRIES
      · simp only [retryLoopDict, holk, hk, if_true]
        exact ih (k + 1) key hkey
      · simp only [retryLoopDict, holk, hk, if_false]
        apply lookupKey_spreadWith
        intro kv hkv
        fin_cases hkv <;> (intro he; subst he; simp_all)

/-- A completion order is irrelevant to the whole board output (articles
and statistics) as long as every article task completes. -/
theorem process_board_order_irrel (order1 order2 : List Nat)
    (oracles : Nat → Nat → AttemptResult) (board : Board)
    (listing : Except String (List Post)) (now : String)
    (h1 : Covers order1 (get_board_posts listing).length)
    (h2 : Covers order2 (get_board_posts listing).length) :
    process_board order1 oracles board listing now =
      process_board order2 oracles board listing now := by
  cases hemp : (get_board_posts listing).isEmpty with
  | true => simp [process_board, hemp]
  | false =>
    have hlen : ((get_board_posts listing).enum.map
        (fun ip => get_article_detail_with_retry (oracles ip.1) ip.2 now)).length =
        (get_board_posts listing).length := by
      simp [List.enum_length]
    simp only [process_board, hemp, Bool.false_eq_true, if_false]
    rw [gather_covers (show Covers order1 _ by rwa [hlen]),
      gather_covers (show Covers order2 _ by rwa [hlen])]

/-- Claim C1 is refuted by the code: a run whose only board produced a
single outcome with status error (every attempt raised) still returns
overall success and exit code 0, even though no ArticleOutcome is a
Success — run() only tests that boards_data is nonempty, and boards_data
keeps failed outcomes. -/
theorem C1_counterexample :
    run [0] (fun _ => [0]) (.ok [sampleBoard]) (fun _ => .ok [samplePost])
      (fun _ _ _ => .exn "boom") "now" = true ∧
    mainExitCode [0] (fun _ => [0]) (.ok [sampleBoard])
      (fun _ => .ok [samplePost]) (fun _ _ _ => .exn "boom") "now" = 0 ∧
    successCount (crawl_all_boards [0] (fun _ => [0]) (.ok [sampleBoard])
      (fun _ => .ok [samplePost]) (fun _ _ _ => .exn "boom") "now") = 0 := by
  decide

/-- Claim C1, amended to what the code does: run() returns overall
success iff at least one board's listing produced at least one post
(every listed post yields exactly one outcome dict whatever its status,
and run() only checks that boards_data is nonempty); the process exit
code is 0 exactly when run() returned True. -/
theorem C1_run_success_iff (boardOrder : List Nat)
    (articleOrders : Nat → List Nat) (discovery : Except String (List Board))
    (listings : Nat → Except String (List Post))
    (oracles : Nat → Nat → Nat → AttemptResult) (now : String)
    (hb : Covers boardOrder (get_hotboards discovery).length)
    (ha : ∀ i, Covers (articleOrders i) (get_board_posts (listings i)).length) :
    (run boardOrder articleOrders discovery listings oracles now = true ↔
      ∃ i < (get_hotboards discovery).length,
        get_board_posts (listings i) ≠ []) ∧
    (mainExitCode boardOrder articleOrders discovery listings oracles now = 0 ↔
      run boardOrder articleOrders discovery listings oracles now = true) := by
  constructor
  · have h1 : run boardOrder articleOrders discovery listings oracles now
        = true ↔
        crawl_all_boards boardOrder articleOrders discovery listings oracles
          now ≠ [] := by
      rw [run, Bool.not_eq_true']
      exact List.isEmpty_eq_false
    rw [h1]
    exact crawl_ne_nil_iff boardOrder articleOrders discovery listings oracles
      now hb ha
  · cases hr : run boardOrder articleOrders discovery listings oracles now <;>
      simp [mainExitCode, hr]

/-- Witness for C1_run_success_iff at a concrete input. -/
theorem C1_run_success_iff_witness :
    run [0] (fun _ => [0]) (.ok [sampleBoard]) (fun _ => .ok [samplePost])
      (fun _ _ _ => .exn "boom") "now" = true :=
  ((C1_run_success_iff [0] (fun _ => [0]) (.ok [sampleBoard])
      (fun _ => .ok [samplePost]) (fun _ _ _ => .exn "boom") "now"
      (by decide)
      (fun _ => show Covers [0]
        (get_board_posts (Except.ok [samplePost])).length by decide)).1).mpr
    ⟨0, by decide, by decide⟩

/-- Claim C2 is refuted by the code: a post whose every attempt raises an
unanticipated exception is indeed caught at the unit boundary, but the
resulting outcome carries retries_used = MAX_RETRIES (the error was
retried like any failure), not retries_used = 0 as the claim states. -/
theorem C2_counterexample :
    (get_article_detail_with_retry (fun _ => .exn "boom") samplePost
      "now").record.status = Status.error ∧
    (get_article_detail_with_retry (fun _ => .exn "boom") samplePost
      "now").record.retry_count = MAX_RETRIES ∧
    ¬((get_article_detail_with_retry (fun _ => .exn "boom") samplePost
      "now").record.retry_count = 0) := by
  decide

/-- Claim C2, amended to what the code does: every error arising inside
an article unit is caught at the unit boundary (the unit is a total
function into outcome dicts, so no exception propagates), an
unanticipated error is retried like an anticipated failure, and when
every attempt errors the unit returns a Failed outcome with status error
and retries_used = MAX_RETRIES (not 0); one post's fault never reaches a
sibling: the j-th outcome of a board is exactly the j-th post's own
unit's output, whatever the other posts' oracles do. -/
theorem C2_unit_boundary (order : List Nat)
    (oracles : Nat → Nat → AttemptResult) (board : Board)
    (listing : Except String (List Post)) (now : String)
    (hcov : Covers order (get_board_posts listing).length) :
    (∀ j (hj : j < (get_board_posts listing).length),
      (process_board order oracles board listing now).articles.get? j =
        some ((get_article_detail_with_retry (oracles j)
          ((get_board_posts listing).get ⟨j, hj⟩) now).record)) ∧
    (∀ oracle post,
      (get_article_detail_with_retry oracle post now).record.status =
          Status.error →
      (get_article_detail_with_retry oracle post now).record.retry_count =
        MAX_RETRIES) := by
  constructor
  · intro j hj
    exact process_board_get order oracles board listing now hcov j hj
  · intro oracle post hst
    have hst2 : (retryLoopIter oracle post now 0
        (MAX_RETRIES + 1)).record.status = Status.error := hst
    apply retryLoopIter_not_success oracle post now (MAX_RETRIES + 1) 0
      (by omega) (by omega)
    rw [hst2]
    simp

/-- Witness for C2_unit_boundary at a concrete input. -/
theorem C2_unit_boundary_witness :
    (get_article_detail_with_retry (fun _ => .exn "x") samplePost
      "now").record.retry_count = MAX_RETRIES :=
  (C2_unit_boundary [0] (fun _ _ => .exn "x") sampleBoard (.ok [samplePost])
    "now" (by decide)).2 (fun _ => .exn "x") samplePost (by decide)

/-- C3: for every board the article fan-out returns exactly one outcome
per input post, in input order (the i-th outcome embeds the i-th input
post), for any completion order that completes all tasks; the
concurrency limit only shapes the scheduling (see the semaphore model),
never the gathered result. -/
theorem C3_outcomes_per_post (order : List Nat)
    (oracles : Nat → Nat → AttemptResult) (board : Board)
    (listing : Except String (List Post)) (now : String)
    (hcov : Covers order (get_board_posts listing).length) :
    (process_board order oracles board listing now).articles.length =
      (get_board_posts listing).length ∧
    (process_board order oracles board listing now).articles.map
        (fun a => a.post) = get_board_posts listing :=
  ⟨process_board_length order oracles board listing now hcov,
   process_board_posts order oracles board listing now hcov⟩

/-- Witness for C3_outcomes_per_post at a concrete input with an
out-of-order completion order. -/
theorem C3_outcomes_per_post_witness :
    (process_board [1, 0] (fun _ _ => .ok "c" 2) sampleBoard
      (.ok [samplePost, samplePost]) "now").articles.length = 2 := by
  have h := C3_outcomes_per_post [1, 0] (fun _ _ => .ok "c" 2) sampleBoard
    (.ok [samplePost, samplePost]) "now" (by decide)
  rw [h.1]
  decide

/-- C4: every outcome satisfies retries_used ≤ MAX_RETRIES; a Success
outcome's retries_used is the 0-indexed number of the first successful
attempt (that attempt succeeds and all earlier ones fail), and no attempt
beyond the successful one appears in the loop's event trace. -/
theorem C4_retry_invariants (oracle : Nat → AttemptResult) (post : Post)
    (now : String) :
    (get_article_detail_with_retry oracle post now).record.retry_count ≤
      MAX_RETRIES ∧
    ((get_article_detail_with_retry oracle post now).record.status =
        Status.success →
      ((oracle ((get_article_detail_with_retry oracle post
          now).record.retry_count)).succeeds = true ∧
       (∀ j < (get_article_detail_with_retry oracle post
          now).record.retry_count, (oracle j).succeeds = false) ∧
       (∀ j t, Ev.attempt j t ∈ retryTrace oracle →
         j ≤ (get_article_detail_with_retry oracle post
          now).record.retry_count))) := by
  refine ⟨(retryLoopIter_bounds oracle post now (MAX_RETRIES + 1) 0 (by omega)
    (by omega)).2, ?_⟩
  intro hst
  obtain ⟨h1, h2⟩ := retryLoopIter_success_first oracle post now
    (MAX_RETRIES + 1) 0 hst
  exact ⟨h1, fun j hj => h2 j (Nat.zero_le j) hj,
    fun j t hmem => retryTraceIter_attempts_le_of_success oracle post now
      (MAX_RETRIES + 1) 0 (by omega) (by omega) hst j t hmem⟩

/-- Witness for C4_retry_invariants at a concrete input (success on the
second attempt). -/
theorem C4_retry_invariants_witness :
    (get_article_detail_with_retry sampleOracle samplePost
      "now").record.retry_count ≤ MAX_RETRIES ∧
    (sampleOracle ((get_article_detail_with_retry sampleOracle samplePost
      "now").record.retry_count)).succeeds = true :=
  ⟨(C4_retry_invariants sampleOracle samplePost "now").1,
   ((C4_retry_invariants sampleOracle samplePost "now").2 (by decide)).1⟩

/-- C5: the retry loop performs at most MAX_RETRIES + 1 attempts; attempt
k uses the escalating setup timeout 10000 + k * 5000; and an attempt that
is followed by another attempt (a failed non-final attempt) is
immediately followed by the fixed, non-exponential RETRY_DELAY sleep. -/
theorem C5_retry_schedule (oracle : Nat → AttemptResult) :
    ((retryTrace oracle).filter Ev.isAttempt).length ≤ MAX_RETRIES + 1 ∧
    (∀ j t, Ev.attempt j t ∈ retryTrace oracle → t = 10000 + j * 5000) ∧
    (∀ pre j t rest, retryTrace oracle = pre ++ Ev.attempt j t :: rest →
      (∃ ev ∈ rest, Ev.isAttempt ev) →
      rest.head? = some (Ev.sleepRetry RETRY_DELAY)) := by
  refine ⟨retryTraceIter_attempt_count oracle (MAX_RETRIES + 1) 0, ?_, ?_⟩
  · intro j t hmem
    have h := retryTraceIter_attempt_timeout oracle (MAX_RETRIES + 1) 0 j t hmem
    simpa [attemptTimeout] using h
  · intro pre j t rest h hex
    exact retryTraceIter_sleep_between oracle (MAX_RETRIES + 1) 0 pre j t rest
      h hex

/-- Witness for C5_retry_schedule at a concrete all-failing oracle. -/
theorem C5_retry_schedule_witness :
    ([Ev.sleepRetry RETRY_DELAY, Ev.attempt 1 15000, Ev.sleepRetry RETRY_DELAY,
      Ev.attempt 2 20000] : List Ev).head? =
      some (Ev.sleepRetry RETRY_DELAY) :=
  (C5_retry_schedule (fun _ => .setupFail)).2.2 [] 0 10000
    [Ev.sleepRetry RETRY_DELAY, Ev.attempt 1 15000, Ev.sleepRetry RETRY_DELAY,
      Ev.attempt 2 20000] (by decide) (by decide)

/-- Claim C6 is refuted by the code on its statistics half: a board whose
listing returned zero posts does yield an (empty) result without
disturbing siblings and is skipped at the output stage, but it is NOT
counted in RunStats: its process_board call returns before the
boards_processed increment, so boards_processed stays 0 even though one
board task ran to completion. -/
theorem C6_counterexample :
    process_board [0] (fun _ _ => .exn "boom") sampleBoard (.ok []) "now" =
      { name := "B", articles := [], retried := 0, errors := 0, crawled := 0,
        failedCnt := 0, boardsProcessed := 0 } ∧
    boards_processed_total [0] (fun _ => [0]) (.ok [sampleBoard])
      (fun _ => .ok []) (fun _ _ _ => .exn "boom") "now" = 0 ∧
    (crawl_bouts [0] (fun _ => [0]) (.ok [sampleBoard]) (fun _ => .ok [])
      (fun _ _ _ => .exn "boom") "now").length = 1 := by
  decide

/-- Claim C6, amended to what the code does: a board whose listing fails
or returns zero posts (get_board_posts degrades both to the empty post
list) still yields a BoardResult with an empty outcome sequence and
contributes zero to every statistics counter including boards_processed —
it is not counted; and the output stage skips exactly the boards with an
empty outcome sequence: every boards_data entry is nonempty. -/
theorem C6_empty_board (order : List Nat)
    (oracles : Nat → Nat → AttemptResult) (board : Board)
    (listing : Except String (List Post)) (now : String)
    (boardOrder : List Nat) (articleOrders : Nat → List Nat)
    (discovery : Except String (List Board))
    (listings : Nat → Except String (List Post))
    (oracles2 : Nat → Nat → Nat → AttemptResult) (now2 : String)
    (h : get_board_posts listing = []) :
    process_board order oracles board listing now =
      { name := board.name, articles := [], retried := 0, errors := 0,
        crawled := 0, failedCnt := 0, boardsProcessed := 0 } ∧
    (∀ entry ∈ crawl_all_boards boardOrder articleOrders discovery listings
      oracles2 now2, entry.2 ≠ []) :=
  ⟨process_board_empty order oracles board listing now h,
   crawl_entries_ne_nil boardOrder articleOrders discovery listings oracles2
     now2⟩

/-- Witness for C6_empty_board at a concrete input whose listing step
raised. -/
theorem C6_empty_board_witness :
    process_board [0] (fun _ _ => .exn "z") sampleBoard (.error "fail")
      "now" =
      { name := "B", articles := [], retried := 0, errors := 0, crawled := 0,
        failedCnt := 0, boardsProcessed := 0 } :=
  (C6_empty_board [0] (fun _ _ => .exn "z") sampleBoard (.error "fail") "now"
    [0] (fun _ => [0]) (.ok [sampleBoard]) (fun _ => .ok [])
    (fun _ _ _ => .exn "z") "now" (by decide)).1

/-- C7: if board discovery raises, or returns an empty board list, the
run substitutes the fixed fallback board list and proceeds: it schedules
one process_board task per fallback board instead of aborting, and the
fallback has exactly NUM_BOARDS = 10 boards. -/
theorem C7_discovery_fallback (boardOrder : List Nat)
    (articleOrders : Nat → List Nat) (discovery : Except String (List Board))
    (listings : Nat → Except String (List Post))
    (oracles : Nat → Nat → Nat → AttemptResult) (now : String)
    (h : (∃ e, discovery = .error e) ∨ discovery = .ok []) :
    get_hotboards discovery = get_default_boards ∧
    (crawl_bouts boardOrder articleOrders discovery listings oracles
      now).length = get_default_boards.length ∧
    get_default_boards.length = 10 := by
  have hgd : get_hotboards discovery = get_default_boards := by
    rcases h with ⟨e, he⟩ | he
    · rw [he]
      rfl
    · rw [he]
      decide
  refine ⟨hgd, ?_, by decide⟩
  rw [crawl_bouts_length, hgd]

/-- Witness for C7_discovery_fallback at a concrete failed discovery. -/
theorem C7_discovery_fallback_witness :
    (crawl_bouts [0] (fun _ => [0]) (.error "x") (fun _ => .ok [])
      (fun _ _ _ => .exn "z") "now").length = 10 := by
  have h := C7_discovery_fallback [0] (fun _ => [0]) (.error "x")
    (fun _ => .ok []) (fun _ _ _ => .exn "z") "now" (Or.inl ⟨"x", rfl⟩)
  exact h.2.1.trans h.2.2

/-- C8: in every snapshot reachable under the nested-semaphore semantics,
the number of concurrently in-flight article fetches never exceeds
CONCURRENT_BOARDS * CONCURRENT_ARTICLES: each in-flight fetch holds a
slot of its board's article semaphore, and its board holds a slot of the
board semaphore. -/
theorem C8_inflight_bound {B A : Nat} (boardOf : Fin A → Fin B)
    (s : SemState B A) (h : SemReachable boardOf s) :
    inFlight s ≤ CONCURRENT_BOARDS * CONCURRENT_ARTICLES :=
  semInv_inFlight (semInv_reachable h)

/-- Witness for C8_inflight_bound at the initial snapshot of a 1-board,
1-article schedule. -/
theorem C8_inflight_bound_witness :
    inFlight (initSemState 1 1) ≤ CONCURRENT_BOARDS * CONCURRENT_ARTICLES :=
  C8_inflight_bound (fun j => j) (initSemState 1 1)
    Relation.ReflTransGen.refl

/-- Claim C9 is refuted by the code: with the very same deterministic
fetch/extract oracle and completion order, two runs at different
wall-clock instants produce different BoardResults, because every success
dict embeds crawl_time = datetime.now(); byte-identical reruns are
impossible without also fixing the clock. -/
theorem C9_counterexample :
    crawl_all_boards [0] (fun _ => [0]) (.ok [sampleBoard])
      (fun _ => .ok [samplePost]) (fun _ _ _ => .ok "c" 2) "2024-01-01" ≠
    crawl_all_boards [0] (fun _ => [0]) (.ok [sampleBoard])
      (fun _ => .ok [samplePost]) (fun _ _ _ => .ok "c" 2) "2024-01-02" := by
  intro h
  have h2 := congrArg (fun bd : List (String × List ArticleRecord) =>
    bd.head?.map (fun e => e.2.head?.map (fun a => a.crawl_time))) h
  have e1 : (fun bd : List (String × List ArticleRecord) =>
      bd.head?.map (fun e => e.2.head?.map (fun a => a.crawl_time)))
      (crawl_all_boards [0] (fun _ => [0]) (.ok [sampleBoard])
        (fun _ => .ok [samplePost]) (fun _ _ _ => .ok "c" 2) "2024-01-01") =
      some (some (some "2024-01-01")) := rfl
  have e2 : (fun bd : List (String × List ArticleRecord) =>
      bd.head?.map (fun e => e.2.head?.map (fun a => a.crawl_time)))
      (crawl_all_boards [0] (fun _ => [0]) (.ok [sampleBoard])
        (fun _ => .ok [samplePost]) (fun _ _ _ => .ok "c" 2) "2024-01-02") =
      some (some (some "2024-01-02")) := rfl
  rw [e1, e2] at h2
  simp at h2

/-- Claim C9, amended: the pipeline is a pure function of the
fetch/extract oracle and the wall clock, and its output is invariant
under the scheduler's completion orders; so re-running with the same
deterministic stub Fetcher/Extractor AND the same clock yields identical
BoardResult sets, whatever the interleaving. -/
theorem C9_deterministic (bo1 bo2 : List Nat) (ao1 ao2 : Nat → List Nat)
    (discovery : Except String (List Board))
    (listings : Nat → Except String (List Post))
    (oracles : Nat → Nat → Nat → AttemptResult) (now : String)
    (hb1 : Covers bo1 (get_hotboards discovery).length)
    (hb2 : Covers bo2 (get_hotboards discovery).length)
    (ha1 : ∀ i, Covers (ao1 i) (get_board_posts (listings i)).length)
    (ha2 : ∀ i, Covers (ao2 i) (get_board_posts (listings i)).length) :
    crawl_all_boards bo1 ao1 discovery listings oracles now =
      crawl_all_boards bo2 ao2 discovery listings oracles now := by
  unfold crawl_all_boards
  rw [crawl_bouts_covers bo1 ao1 discovery listings oracles now hb1,
    crawl_bouts_covers bo2 ao2 discovery listings oracles now hb2]
  have hmap : (get_hotboards discovery).enum.map (fun ib =>
      process_board (ao1 ib.1) (oracles ib.1) ib.2 (listings ib.1) now) =
      (get_hotboards discovery).enum.map (fun ib =>
      process_board (ao2 ib.1) (oracles ib.1) ib.2 (listings ib.1) now) := by
    apply List.map_congr_left
    intro ib _
    exact process_board_order_irrel (ao1 ib.1) (ao2 ib.1) (oracles ib.1) ib.2
      (listings ib.1) now (ha1 ib.1) (ha2 ib.1)
  rw [hmap]

/-- Witness for C9_deterministic: two different completion orders give
the same boards_data. -/
theorem C9_deterministic_witness :
    crawl_all_boards [0] (fun _ => [0, 1]) (.ok [sampleBoard])
      (fun _ => .ok [samplePost, samplePost]) (fun _ _ _ => .ok "c" 2) "T" =
    crawl_all_boards [0, 5] (fun _ => [1, 0]) (.ok [sampleBoard])
      (fun _ => .ok [samplePost, samplePost]) (fun _ _ _ => .ok "c" 2) "T" :=
  C9_deterministic [0] [0, 5] (fun _ => [0, 1]) (fun _ => [1, 0])
    (.ok [sampleBoard]) (fun _ => .ok [samplePost, samplePost])
    (fun _ _ _ => .ok "c" 2) "T" (by decide) (by decide)
    (fun _ => show Covers [0, 1] (get_board_posts
      (Except.ok [samplePost, samplePost])).length by decide)
    (fun _ => show Covers [1, 0] (get_board_posts
      (Except.ok [samplePost, samplePost])).length by decide)

/-- C10: on every path of the unit (success, failed, error, fallback) the
returned dict preserves the five input post fields title, link, author,
date and board unchanged: the spread merge only adds or overwrites the
result keys content, pushes, status, crawl_time, retry_count, error,
which are disjoint from the post keys. -/
theorem C10_frame (oracle : Nat → AttemptResult)
    (now title link author date board : String) :
    lookupKey (get_article_detail_dict oracle
      (postDict title link author date board) now) "title" =
        some (.s title) ∧
    lookupKey (get_article_detail_dict oracle
      (postDict title link author date board) now) "link" = some (.s link) ∧
    lookupKey (get_article_detail_dict oracle
      (postDict title link author date board) now) "author" =
        some (.s author) ∧
    lookupKey (get_article_detail_dict oracle
      (postDict title link author date board) now) "date" = some (.s date) ∧
    lookupKey (get_article_detail_dict oracle
      (postDict title link author date board) now) "board" =
        some (.s board) := by
  have h := retryLoopDict_frame oracle (postDict title link author date board)
    now (MAX_RETRIES + 1) 0
  refine ⟨?_, ?_, ?_, ?_, ?_⟩ <;>
    (rw [get_article_detail_dict, h _ (by decide)]; rfl)

end PTTCrawler
